import Mathlib

set_option maxRecDepth 8000

/-!
# Verification of the agent-bridge event store and coordinator

A shallow embedding of the core of `server.py` and `coordinator.py`:
the thread event log and its admission control, the control-state reducer,
the coordinator's per-tick scan (cursor, control folding, mention
resolution, dispatch), the adapter outcome handling, the presence
registry update, the truncation helper and the ULID-like id generator.

Modelling conventions:
* Python `str` is modelled by `String`; character-level operations
  (split, strip, lower, lexicographic comparison, slicing) are
  implemented on `String.data : List Char` so that every definition
  evaluates inside the kernel.  Python compares strings by code points,
  which is exactly `Char.toNat` order; `lower()` agrees with
  `Char.toLower` on the ASCII identifiers the program manipulates.
* Python `set[str]` is modelled by a duplicate-free `List String` in
  insertion order (`setInsert`/`setDiscard`/`setUnion`).  The source
  only ever observes sets through membership, emptiness and `sorted()`,
  all of which are order-independent, and `sorted` is modelled by a
  stable insertion sort under the same code-point order.
* JSON dict fields that may be absent are `Option`s.  A field read with
  `str(x.get(k) or default)` is modelled as a `String` where the empty
  string stands for "absent or falsy", mirrored by `pyOr`.
* An event's `content` is either a plain string (used for mention
  extraction), a parsed control object, or absent.  This models the
  observable outcome of `_parse_control_content`: a JSON object, or a
  JSON-encoded string of an object, parses to the object
  (`EvContent.obj`); any other value parses to nothing.  An empty
  control dict is Python-falsy and skipped by the source, but applying
  it would be the identity, so the model loses nothing by treating
  `obj` with all fields absent as applicable.
* I/O (files, HTTP, subprocesses, wall clock) is made explicit: the
  per-thread journal is a `List Event` (`Option` for a missing file),
  the freshly stamped `id`/`ts` are parameters, the adapter subprocess
  is an oracle `String → String → AdapterResult` whose result already
  reflects the `try/except` wrapping (synthetic exit codes 124/125),
  and the presence fetch is the participant index it produces.
-/

/-! ## Python string primitives -/

/-- Python whitespace for `str.split()` / `str.strip()` (ASCII part). -/
def pyIsSpace (c : Char) : Bool :=
  c = ' ' || c = '\t' || c = '\n' || c = '\r' || c = '\x0b' || c = '\x0c'

/-- Models `str.strip()` on the character list. -/
def pyStripChars (l : List Char) : List Char :=
  ((l.dropWhile pyIsSpace).reverse.dropWhile pyIsSpace).reverse

/-- Python `s.strip()`. -/
def pyStrip (s : String) : String := ⟨pyStripChars s.data⟩

/-- Worker for `str.split()`: split at whitespace runs, dropping empties. -/
def splitWsAux : List Char → List Char → List (List Char)
  | [], acc => if acc = [] then [] else [acc.reverse]
  | c :: cs, acc =>
    if pyIsSpace c then
      (if acc = [] then splitWsAux cs [] else acc.reverse :: splitWsAux cs [])
    else splitWsAux cs (c :: acc)

/-- Python `s.split()` with no separator argument. -/
def pySplitWs (s : String) : List String := (splitWsAux s.data []).map (fun l => ⟨l⟩)

/-- Python `s.lower()` (ASCII-faithful). -/
def pyLower (s : String) : String := ⟨s.data.map Char.toLower⟩

/-- Code-point lexicographic `<` on character lists, as Python compares. -/
def lexLtChars : List Char → List Char → Bool
  | [], [] => false
  | [], _ :: _ => true
  | _ :: _, [] => false
  | a :: as, b :: bs => if a < b then true else if b < a then false else lexLtChars as bs

/-- Python `a < b` on strings. -/
def pyStrLt (a b : String) : Bool := lexLtChars a.data b.data

/-- Python `a <= b` on strings. -/
def pyStrLe (a b : String) : Bool := !(pyStrLt b a)

/-- Python `a or dflt` for strings (empty is falsy). -/
def pyOr (a dflt : String) : String := if a = "" then dflt else a

/-- Python `s.startswith(p)`. -/
def pyStartsWith (s p : String) : Bool := p.data.isPrefixOf s.data

/-- Python `s[n:]` (by characters, as for `str`). -/
def pyDropChars (s : String) (n : Nat) : String := ⟨s.data.drop n⟩

/-- Python `s.rstrip(cut)`. -/
def pyRstrip (s : String) (cut : List Char) : String :=
  ⟨(s.data.reverse.dropWhile (fun c => cut.contains c)).reverse⟩

/-- Python `s[:k]` where `k` may be negative (counts from the end). -/
def pySliceTo (l : List Char) (k : Int) : List Char :=
  if 0 ≤ k then l.take k.toNat else l.take (l.length - (-k).toNat)

/-! ## Python string sets and sorting -/

/-- Models `set.add`: duplicate-free list in insertion order. -/
def setInsert (l : List String) (x : String) : List String :=
  if x ∈ l then l else l ++ [x]

/-- Models `set.discard`. -/
def setDiscard (l : List String) (x : String) : List String := l.filter (fun y => y != x)

/-- Models `set.update` (union), keeping the left operand's insertion order first. -/
def setUnion (a b : List String) : List String := b.foldl setInsert a

/-- Stable insertion step for `sorted`. -/
def insertLeBy {α : Type} (le : α → α → Bool) (x : α) : List α → List α
  | [] => [x]
  | y :: ys => if le x y then x :: y :: ys else y :: insertLeBy le x ys

/-- Stable insertion sort, modelling Python's (stable) `sorted`. -/
def sortLeBy {α : Type} (le : α → α → Bool) : List α → List α
  | [] => []
  | x :: xs => insertLeBy le x (sortLeBy le xs)

/-- Python `sorted` on a collection of strings. -/
def pySortStrs (l : List String) : List String := sortLeBy pyStrLe l

/-! ## Control contents and thread state -/

/-- Payload of `content["mute"]`. -/
structure MuteSpec where
  mode : Option String
  targets : Option (List String)
  deriving DecidableEq, Repr

/-- Payload of `content["unmute"]`. -/
structure UnmuteSpec where
  targets : Option (List String)
  deriving DecidableEq, Repr

/-- Payload of `content["pause"]`. -/
structure PauseSpec where
  on_ : Option Bool
  deriving DecidableEq, Repr

/-- Payload of `content["discussion"]`. -/
structure DiscussionSpec where
  on_ : Option Bool
  allow_agent_mentions : Option Bool
  deriving DecidableEq, Repr

/-- A parsed control-content dict: any subset of the four verbs. -/
structure ControlContent where
  mute : Option MuteSpec
  unmute : Option UnmuteSpec
  pause : Option PauseSpec
  discussion : Option DiscussionSpec
  deriving DecidableEq, Repr

/-- An event's `content` as classified by `_parse_control_content`:
a plain string, a control object (possibly JSON-encoded), or absent. -/
inductive EvContent where
  | str (s : String)
  | obj (c : ControlContent)
  | absent
  deriving DecidableEq, Repr

/-- Models `_parse_control_content` (server.py:183, coordinator.py:101): only an
object (or a JSON string that decodes to one) yields a control dict. -/
def _parse_control_content (c : EvContent) : Option ControlContent :=
  match c with
  | .obj cc => some cc
  | _ => none

/-- The `discussion` component of derived thread state. -/
structure DiscussionState where
  on_ : Bool
  allow_agent_mentions : Bool
  deriving DecidableEq, Repr

/-- Derived thread state: `{paused, muted, discussion}`. -/
structure ThreadState where
  paused : Bool
  muted : List String
  discussion : DiscussionState
  deriving DecidableEq, Repr

/-- Models `_default_control_state` (coordinator.py:112). -/
def _default_control_state : ThreadState := ⟨false, [], ⟨false, false⟩⟩

/-- The `mute` verb: `mode = str(mute.get("mode") or "hard")`; only
`hard` mode with a list of targets adds the non-empty stripped ids. -/
def applyMute (muted : List String) (m : MuteSpec) : List String :=
  let mode := pyOr (m.mode.getD "") "hard"
  match m.targets with
  | some ts =>
    if mode = "hard" then
      ts.foldl (fun mu t => let p := pyStrip t; if p ≠ "" then setInsert mu p else mu) muted
    else muted
  | none => muted

/-- The `unmute` verb: removes the non-empty stripped ids. -/
def applyUnmute (muted : List String) (u : UnmuteSpec) : List String :=
  match u.targets with
  | some ts =>
    ts.foldl (fun mu t => let p := pyStrip t; if p ≠ "" then setDiscard mu p else mu) muted
  | none => muted

/-- Models `_apply_control_content_to_state` (coordinator.py:119; the server's
reducer body at server.py:211-238 is the same text inlined): mute and
unmute are incremental, pause and discussion are last-write-wins. -/
def _apply_control_content_to_state (st : ThreadState) (c : ControlContent) : ThreadState :=
  let st1 := match c.mute with
    | some m => { st with muted := applyMute st.muted m }
    | none => st
  let st2 := match c.unmute with
    | some u => { st1 with muted := applyUnmute st1.muted u }
    | none => st1
  let st3 := match c.pause with
    | some p => { st2 with paused := p.on_.getD true }
    | none => st2
  match c.discussion with
  | some d =>
    let o := d.on_.getD true
    { st3 with discussion := ⟨o, d.allow_agent_mentions.getD o⟩ }
  | none => st3

/-- One reducer step on a raw event: only `type == "control"` events
`from == "user"` with parseable content change the state. -/
structure Event where
  id : String
  ts : String
  type : String
  from_ : String
  to_ : String
  content : EvContent
  deriving DecidableEq, Repr

/-- The qualifying filter + application shared by `_derive_thread_state`
(server.py:194-239) and the coordinator scan (coordinator.py:553-556). -/
def applyQualifyingControl (st : ThreadState) (e : Event) : ThreadState :=
  if e.type = "control" ∧ e.from_ = "user" then
    match _parse_control_content e.content with
    | some c => _apply_control_content_to_state st c
    | none => st
  else st

/-- Models `_derive_thread_state` (server.py:194): fold all qualifying controls. -/
def _derive_thread_state (events : List Event) : ThreadState :=
  events.foldl applyQualifyingControl _default_control_state

/-- Worker for `_control_state_before_event`: stop at the first event
whose id equals the target id. -/
def controlStateBeforeAux (st : ThreadState) (eid : String) : List Event → ThreadState
  | [] => st
  | e :: rest =>
    if pyOr e.id "" = eid then st
    else controlStateBeforeAux (applyQualifyingControl st e) eid rest

/-- Models `_control_state_before_event` (coordinator.py:153). -/
def _control_state_before_event (events : List Event) (event_id : String) : ThreadState :=
  controlStateBeforeAux _default_control_state event_id events

/-! ## Server: journal reads, admission, state snapshot, presence -/

/-- Models `read_thread_events` (server.py:142): a missing journal file reads as
the empty list; a truthy `since` keeps only events with `ts > since`.
The journal file is `Option (List Event)`, `none` when it does not
exist; `since` is `none` when the query parameter is absent. -/
def read_thread_events (file : Option (List Event)) (since : Option String) : List Event :=
  match file with
  | none => []
  | some evs =>
    evs.filter (fun e =>
      match since with
      | some s => if s = "" then true else !(pyStrLe e.ts s)
      | none => true)

/-- Models `GET /threads/{id}/events` (server.py:375): events plus their count. -/
def get_thread_events (file : Option (List Event)) (since : Option String) :
    List Event × Nat :=
  let evs := read_thread_events file since
  (evs, evs.length)

/-- The JSON shape returned by `GET /threads/{id}/state`. -/
structure StateSnapshot where
  thread : String
  paused : Bool
  muted : List String
  discussion_on : Bool
  discussion_allow_agent_mentions : Bool
  deriving DecidableEq, Repr

/-- Models `get_thread_state_snapshot` (server.py:251): derive state from the
full journal and report it with `muted` sorted. -/
def get_thread_state_snapshot (file : Option (List Event)) (tid : String) : StateSnapshot :=
  let st := _derive_thread_state (read_thread_events file none)
  ⟨tid, st.paused, pySortStrs st.muted, st.discussion.on_, st.discussion.allow_agent_mentions⟩

/-- The 409 error body `{code, message, thread, participant}`. -/
structure ErrorBody where
  code : String
  message : String
  thread : String
  participant : String
  deriving DecidableEq, Repr

/-- The body of a `POST /threads/{id}/events` request.  `none` fields
model keys absent from the JSON dict. -/
structure SReq where
  rtype : Option String
  rfrom : Option String
  rto : Option String
  rcontent : Option EvContent
  deriving DecidableEq, Repr

/-- Outcome of `POST /threads/{id}/events`: each constructor carries the
journal after the request, so "no event is appended" is visible. -/
inductive PostResult where
  | badRequest (status : Nat) (msg : String) (log : List Event)
  | conflict (status : Nat) (body : ErrorBody) (log : List Event)
  | ok (entry : Event) (log : List Event)
  deriving DecidableEq, Repr

/-- The journal after the request, whatever the outcome. -/
def PostResult.log : PostResult → List Event
  | .badRequest _ _ l => l
  | .conflict _ _ l => l
  | .ok _ l => l

/-- Models `write_thread_event` (server.py:125): stamp `id` and `ts` (passed in
as the impure inputs) and merge the caller's fields.  Absent caller
fields read back as `""`/`absent` through the `str(… or …)` accessors.
The `thread` stamp is constant per journal and read by nothing the
claims touch, so `Event` does not carry it. -/
def write_thread_event (newId newTs : String) (data : SReq) : Event :=
  { id := newId, ts := newTs, type := data.rtype.getD "",
    from_ := data.rfrom.getD "", to_ := data.rto.getD "",
    content := data.rcontent.getD .absent }

/-- Models `post_thread_event` (server.py:385): validation, then for message
events from a non-`user` sender the admission gate over the state
derived from the already-stored events — `participant_muted` first,
`thread_paused` second — and only then the append.  `tid` names the
thread, `log` is its current journal, `newId`/`newTs` the stamps the
append would use. -/
def post_thread_event (log : List Event) (tid : String) (data : SReq)
    (newId newTs : String) : PostResult :=
  match data.rfrom with
  | none => .badRequest 400 "Missing 'from'" log
  | some f =>
    if data.rcontent = none ∧ data.rtype = some "message" then
      .badRequest 400 "Missing 'content'" log
    else if data.rtype = some "message" ∧ f ≠ "user" then
      let st := _derive_thread_state log
      if f ∈ st.muted then
        .conflict 409 ⟨"participant_muted", "Participant is muted for this thread.", tid, f⟩ log
      else if st.paused then
        .conflict 409 ⟨"thread_paused", "Thread is paused for non-user participants.", tid, f⟩ log
      else
        let e := write_thread_event newId newTs data
        .ok e (log ++ [e])
    else
      let e := write_thread_event newId newTs data
      .ok e (log ++ [e])

/-- A free-form JSON `details` object (opaque to the registry). -/
abbrev DetailsDict := List (String × String)

/-- One in-memory presence entry for a `(thread, participant)` pair. -/
structure PresenceEntry where
  state : String
  updated_at : String
  details : Option DetailsDict
  deriving DecidableEq, Repr

/-- Models `set_presence` (server.py:272) for one `(thread, participant)` slot:
`existing` is the previously stored entry (if any), `now` the stamped
time.  Without `details`, the prior details are carried over. -/
def set_presence (existing : Option PresenceEntry) (state now : String)
    (details : Option DetailsDict) : PresenceEntry :=
  match details with
  | none => { state := state, updated_at := now, details := existing.bind (fun e => e.details) }
  | some d => { state := state, updated_at := now, details := some d }

/-! ## Coordinator: identifiers -/

/-- Crockford base32 alphabet (server.py:46). -/
def BASE32_ALPHABET : List Char := "0123456789ABCDEFGHJKMNPQRSTVWXYZ".data

/-- The digits produced by the encoding loop, least significant first:
`chars.append(ALPHABET[value & 0x1F]); value >>= 5`. -/
def encodeDigits : Nat → Nat → List Char
  | _, 0 => []
  | v, n + 1 => BASE32_ALPHABET.getD (v % 32) '0' :: encodeDigits (v / 32) n

/-- Models `_encode_base32` (server.py:49): fixed-width, most significant first
(the loop's digits reversed). -/
def _encode_base32 (value len : Nat) : List Char := (encodeDigits value len).reverse

/-- Models `ulid` (server.py:58): 10 chars of millisecond timestamp followed by
16 chars of the 80 random bits, both inputs made explicit. -/
def ulid (timestamp_ms rand : Nat) : String :=
  ⟨_encode_base32 timestamp_ms 10 ++ _encode_base32 rand 16⟩

/-! ## Coordinator: truncation and adapter outcomes -/

/-- Models `_truncate` (coordinator.py:80): texts within budget pass through;
longer texts keep the first `max_chars - 20` characters (a Python slice,
so a negative count drops from the end) plus the truncation marker. -/
def _truncate (text : String) (max_chars : Int) : String :=
  if (text.data.length : Int) ≤ max_chars then text
  else ⟨pySliceTo text.data (max_chars - 20)⟩ ++ "\n\n[truncated]\n"

/-- Result of one adapter invocation after the `try/except` wrapping
(coordinator.py:685-690): the exit code (124 on timeout, 125 on spawn
error), captured stdout and captured stderr. -/
structure AdapterResult where
  rc : Int
  out : String
  err : String
  deriving DecidableEq, Repr

/-- Models `meta` as posted by the coordinator: `{reply_to, tags}`. -/
structure EventMeta where
  reply_to : String
  tags : List String
  deriving DecidableEq, Repr

/-- An event payload the coordinator POSTs to the bridge
(the server stamps `id`/`ts` on append). -/
structure PostEvent where
  type : String
  from_ : String
  to_ : String
  content : String
  meta : EventMeta
  deriving DecidableEq, Repr

/-- Static configuration the dispatch logic reads (coordinator.py:394-402).
`mention_sigil` embeds the config key `mention_prefix` (renamed here). -/
structure CoordConfig where
  coordinator_id : String
  agents : List String
  enable_mentions : Bool
  mention_sigil : String
  max_reply_chars : Int
  deriving DecidableEq, Repr

/-- The combined failure text of coordinator.py:719:
`Adapter failed for {agent} (exit {rc}).\n\nstderr:\n{err.strip()}\n\nstdout:\n{out.strip()}`. -/
def adapterFailureText (agent_id : String) (rc : Int) (err out : String) : String :=
  "Adapter failed for " ++ agent_id ++ " (exit " ++ toString rc ++ ")." ++
    "\n\nstderr:\n" ++ pyStrip err ++ "\n\nstdout:\n" ++ pyStrip out

/-- The event appended after one adapter run (coordinator.py:695-724):
exit 0 posts the reply as the agent, truncated to `max_reply_chars` and
defaulted to `[no output]`; any other exit posts the failure text as the
coordinator, truncated to 4000 characters and tagged as an error. -/
def adapterResultEvent (cfg : CoordConfig) (agent_id evt_id : String)
    (r : AdapterResult) : PostEvent :=
  if r.rc = 0 then
    let reply0 := pyStrip (_truncate (pyStrip r.out) cfg.max_reply_chars)
    let reply := if reply0 = "" then "[no output]" else reply0
    ⟨"message", agent_id, "all", reply, ⟨evt_id, ["coordinator"]⟩⟩
  else
    ⟨"message", cfg.coordinator_id, "all",
      _truncate (adapterFailureText agent_id r.rc r.err r.out) 4000,
      ⟨evt_id, ["coordinator", "error"]⟩⟩

/-! ## Coordinator: mention extraction and resolution -/

/-- The trailing punctuation stripped from a mention token
(`.,:;!?)]}"'`, coordinator.py:96). -/
def MENTION_TRAIL : List Char :=
  ['.', ',', ':', ';', '!', '?', ')', ']', '\x7d', '\x22', Char.ofNat 39]

/-- Models `_extract_mentions` (coordinator.py:85): whitespace-split tokens that
start with the sigil (default `@` when empty), trailing punctuation
stripped, lowercased, collected as a set. -/
def _extract_mentions (content : EvContent) (sigil : String) : List String :=
  match content with
  | .str s =>
    let p := pyOr sigil "@"
    (pySplitWs s).foldl
      (fun acc token =>
        if pyStartsWith token p && p.data.length < token.data.length then
          let mention := pyRstrip (pyDropChars token p.data.length) MENTION_TRAIL
          if mention ≠ "" then setInsert acc (pyLower mention) else acc
        else acc)
      []
  | _ => []

/-- A participant profile (configured or from presence details):
`nickname`, `client`, `model`, `roles`. -/
structure Profile where
  nickname : Option String
  client : Option String
  model : Option String
  roles : List String
  deriving DecidableEq, Repr

/-- The empty profile (`participants.get(pid, {})`). -/
def emptyProfile : Profile := ⟨none, none, none, []⟩

/-- The guard `isinstance(x, str) and x.strip()`: the raw string when it
is a string with a non-empty strip. -/
def effOptStr (o : Option String) : Option String :=
  match o with
  | some s => if pyStrip s = "" then none else some s
  | none => none

/-- The participant directory: a dict `participant id → profile` in
insertion order (configured agents first, then presence entries).  This
is the output of `_build_participant_index`; the HTTP presence fetch
that feeds it is modelled by passing the directory itself. -/
abbrev Participants := List (String × Profile)

/-- Lookup in `id_map = {pid.lower(): pid}`: a dict comprehension, so a
later key overwrites an earlier one. -/
def idLookup (participants : Participants) (m : String) : Option String :=
  ((participants.map Prod.fst).reverse).find? (fun p => pyLower p == m)

/-- Models `nickname_map[m]`: the ids whose effective nickname lowercases to
`m`, in insertion order. -/
def nicknameIds (participants : Participants) (m : String) : List String :=
  (participants.filter (fun pr =>
    match effOptStr pr.2.nickname with
    | some n => pyLower n == m
    | none => false)).map Prod.fst

/-- Models `role_map[m]` membership: some role entry with non-empty strip whose
lowercase equals `m`. -/
def roleIds (participants : Participants) (m : String) : List String :=
  (participants.filter (fun pr =>
    pr.2.roles.any (fun r => pyStrip r != "" && pyLower r == m))).map Prod.fst

/-- Models `client_map[m]` membership. -/
def clientIds (participants : Participants) (m : String) : List String :=
  (participants.filter (fun pr =>
    match effOptStr pr.2.client with
    | some c => pyLower c == m
    | none => false)).map Prod.fst

/-- Models `model_map[m]` membership. -/
def modelIds (participants : Participants) (m : String) : List String :=
  (participants.filter (fun pr =>
    match effOptStr pr.2.model with
    | some c => pyLower c == m
    | none => false)).map Prod.fst

/-- Models `role_map ∪ client_map ∪ model_map` for one mention, in the source's
update order. -/
def categoryIds (participants : Participants) (m : String) : List String :=
  setUnion (setUnion (setUnion [] (roleIds participants m)) (clientIds participants m))
    (modelIds participants m)

/-- The reserved mention tokens (coordinator.py:202). -/
def RESERVED : List String := ["all", "everyone", "here"]

/-- The three outputs of `_resolve_mentions`: resolved target ids,
ambiguous nicknames with their sorted candidate lists (dict in
iteration order), and the reserved tokens that were hit. -/
structure ResolveOut where
  target_ids : List String
  ambiguous : List (String × List String)
  reserved_hits : List String
  deriving DecidableEq, Repr

/-- One iteration of the `for mention in sorted(mentions)` loop
(coordinator.py:229-251): reserved first, then exact id, then unique or
ambiguous nickname, then the role/client/model category union. -/
def resolveStep (participants : Participants) (acc : ResolveOut) (mention : String) :
    ResolveOut :=
  if mention ∈ RESERVED then
    { acc with reserved_hits := setInsert acc.reserved_hits mention }
  else
    match idLookup participants mention with
    | some pid => { acc with target_ids := setInsert acc.target_ids pid }
    | none =>
      let nids := nicknameIds participants mention
      if nids ≠ [] then
        match pySortStrs nids with
        | [p] => { acc with target_ids := setInsert acc.target_ids p }
        | ids => { acc with ambiguous := acc.ambiguous ++ [(mention, ids)] }
      else
        let cats := categoryIds participants mention
        if cats ≠ [] then { acc with target_ids := setUnion acc.target_ids cats }
        else acc

/-- Models `_resolve_mentions` (coordinator.py:198). -/
def _resolve_mentions (mentions : List String) (participants : Participants) : ResolveOut :=
  (pySortStrs mentions).foldl (resolveStep participants) ⟨[], [], []⟩

/-- Models `_participant_display` (coordinator.py:254): nickname with
client/model qualifiers, or the best fallback, or the id. -/
def _participant_display (pid : String) (profile : Profile) : String :=
  match effOptStr profile.nickname, effOptStr profile.client, effOptStr profile.model with
  | some n, some c, some m => pyStrip n ++ " (" ++ pyStrip c ++ "/" ++ pyStrip m ++ ")"
  | some n, some c, none => pyStrip n ++ " (" ++ pyStrip c ++ ")"
  | some n, none, some m => pyStrip n ++ " (" ++ pyStrip m ++ ")"
  | some n, none, none => pyStrip n
  | none, some c, some m => pyStrip c ++ "/" ++ pyStrip m
  | none, some c, none => pyStrip c
  | none, none, some m => pyStrip m
  | none, none, none => pid

/-- Models `participants.get(pid, {})`. -/
def lookupProfile (participants : Participants) (pid : String) : Profile :=
  ((participants.find? (fun pr => pr.1 == pid)).map Prod.snd).getD emptyProfile

/-! ## Coordinator: the per-event scan -/

/-- What the scan does to the outside world for one event: adapter
invocations and events POSTed back to the bridge, in program order.
Presence posts (best-effort, invisible to the log) are not recorded. -/
inductive ScanAction where
  | invoke (agent : String) (eventId : String)
  | post (e : PostEvent)
  deriving DecidableEq, Repr

/-- The reserved-mention notice (coordinator.py:614-629). -/
def reservedNoticeEvent (cfg : CoordConfig) (evt_id : String) (hits : List String) :
    PostEvent :=
  ⟨"message", cfg.coordinator_id, "user",
    "Reserved mention(s) " ++
      String.intercalate ", " ((pySortStrs hits).map (fun m => "@" ++ m)) ++
      " are not supported. Please mention specific participants (e.g. @codex) or use to=<participant_id>.",
    ⟨evt_id, ["coordinator"]⟩⟩

/-- The nickname-ambiguity notice (coordinator.py:631-649); the dict's
items are visited in sorted key order. -/
def ambiguityNoticeEvent (cfg : CoordConfig) (evt_id : String)
    (ambiguous : List (String × List String)) (participants : Participants) : PostEvent :=
  let lines := (sortLeBy (fun a b => pyStrLe a.1 b.1) ambiguous).map (fun pr =>
    "@" ++ pr.1 ++ ": " ++
      String.intercalate ", " (pr.2.map (fun pid =>
        pid ++ " — " ++ _participant_display pid (lookupProfile participants pid))))
  ⟨"message", cfg.coordinator_id, "user",
    "Nickname ambiguity. Please clarify by re-sending with to=<participant_id> or @<participant_id>:\n" ++
      String.intercalate "\n" lines,
    ⟨evt_id, ["coordinator"]⟩⟩

/-- The mute gate plus the invocation loop (coordinator.py:659-724): drop
muted targets, then for each survivor invoke the adapter and post its
result event. -/
def dispatchActions (cfg : CoordConfig) (runAdapter : String → String → AdapterResult)
    (st : ThreadState) (targets0 : List String) (evt_id : String) : List ScanAction :=
  let targets := if st.muted = [] then targets0
    else targets0.filter (fun a => !(st.muted.contains a))
  targets.flatMap (fun a =>
    [ScanAction.invoke a evt_id, ScanAction.post (adapterResultEvent cfg a evt_id (runAdapter a evt_id))])

/-- The dispatch decision for one new, unseen event
(coordinator.py:576-724): skip coordinator-authored events, non-message
events, `to == "user"` events and everything while paused; a direct
`to == agent` targets exactly that agent; `to == "all"` goes through
mention extraction (gated by `enable_mentions` and, for agent senders,
by discussion mode), resolution, the reserved/ambiguity notices, the
self-mention filter and the sorted restriction to configured agents. -/
def eventActions (cfg : CoordConfig) (runAdapter : String → String → AdapterResult)
    (participants : Participants) (st : ThreadState) (evt : Event) : List ScanAction :=
  let evt_to := pyOr evt.to_ "all"
  let evt_from := evt.from_
  if evt_from = cfg.coordinator_id then []
  else if evt.type ≠ "message" then []
  else if evt_to = "user" then []
  else if st.paused then []
  else if evt_to ≠ "all" then
    if evt_to ∈ cfg.agents then dispatchActions cfg runAdapter st [evt_to] evt.id else []
  else
    let allow := evt_from = "user" ∨ (st.discussion.on_ ∧ st.discussion.allow_agent_mentions)
    let mentions :=
      if cfg.enable_mentions ∧ allow then _extract_mentions evt.content cfg.mention_sigil
      else []
    if mentions = [] then []
    else
      let res := _resolve_mentions mentions participants
      let resolved := res.target_ids.filter (fun pid => pyLower pid != pyLower evt_from)
      let notices :=
        (if evt_from = "user" ∧ res.reserved_hits ≠ [] then
          [ScanAction.post (reservedNoticeEvent cfg evt.id res.reserved_hits)]
         else []) ++
        (if res.ambiguous ≠ [] then
          [ScanAction.post (ambiguityNoticeEvent cfg evt.id res.ambiguous participants)]
         else [])
      let target_agents :=
        if resolved ≠ [] then pySortStrs (resolved.filter (fun a => cfg.agents.contains a))
        else []
      notices ++ dispatchActions cfg runAdapter st target_agents evt.id

/-- The coordinator's per-thread scan state within one tick: the cursor
`thread_state["last_ts"]`, the `processed_ids` dedup set, the in-scan
`control_state`, and the externally visible actions so far. -/
structure ScanAcc where
  last_ts : String
  seen : List String
  control_state : ThreadState
  actions : List ScanAction
  deriving DecidableEq, Repr

/-- One iteration of `for evt in events` (coordinator.py:542-724).
`since` is the tick's fixed cursor; events with empty `ts` are skipped;
user controls fold into `control_state` (advancing the cursor when new)
and are never dispatched; any other new event advances the cursor, is
deduplicated against `seen` (cap 5000 with bulk clear), and its dispatch
actions are appended. -/
def scanStep (cfg : CoordConfig) (runAdapter : String → String → AdapterResult)
    (participants : Participants) (since : String) (acc : ScanAcc) (evt : Event) : ScanAcc :=
  if evt.ts = "" then acc
  else if evt.type = "control" ∧ evt.from_ = "user" then
    let st := match _parse_control_content evt.content with
      | some c => _apply_control_content_to_state acc.control_state c
      | none => acc.control_state
    { acc with control_state := st,
               last_ts := if pyStrLt since evt.ts then evt.ts else acc.last_ts }
  else if pyStrLt since evt.ts then
    let acc1 := { acc with last_ts := evt.ts }
    if evt.id = "" ∨ evt.id ∈ acc1.seen then acc1
    else
      let seen1 := setInsert acc1.seen evt.id
      let seen2 := if 5000 < seen1.length then [] else seen1
      { acc1 with seen := seen2,
                  actions := acc1.actions ++
                    eventActions cfg runAdapter participants acc1.control_state evt }
  else acc

/-- The whole in-order scan of one thread in one tick, for a thread that
already has a (non-empty) cursor `since` (coordinator.py:539-724):
`control_state` starts at the default and `last_ts` starts at the
cursor. -/
def scanThread (cfg : CoordConfig) (runAdapter : String → String → AdapterResult)
    (participants : Participants) (since : String) (seen0 : List String)
    (events : List Event) : ScanAcc :=
  events.foldl (scanStep cfg runAdapter participants since)
    ⟨since, seen0, _default_control_state, []⟩

/-! ## Concrete fixtures used by witnesses and counterexamples -/

/-- A small coordinator configuration with two agents. -/
def sampleCfg : CoordConfig := ⟨"bridge-coordinator", ["codex", "claude"], true, "@", 8000⟩

/-- An adapter oracle that always succeeds with a fixed reply. -/
def sampleRun : String → String → AdapterResult := fun _ _ => ⟨0, "hi there", ""⟩

/-- A participant directory of the two configured agents. -/
def sampleParts : Participants := [("codex", emptyProfile), ("claude", emptyProfile)]

/-- A user control event that hard-mutes `codex`. -/
def sampleMute : Event :=
  ⟨"c1", "T1", "control", "user", "all", .obj ⟨some ⟨none, some ["codex"]⟩, none, none, none⟩⟩

/-- A later user control event that hard-mutes `codex`. -/
def sampleMute2 : Event :=
  ⟨"c3", "T3", "control", "user", "all", .obj ⟨some ⟨none, some ["codex"]⟩, none, none, none⟩⟩

/-- A user message mentioning `codex`. -/
def sampleUserMsg : Event := ⟨"m1", "T2", "message", "user", "all", .str "@codex hi"⟩

/-- A well-formed message request from `codex`. -/
def sampleReq : SReq := ⟨some "message", some "codex", some "all", some (.str "hello")⟩

/-- A message authored by the coordinator itself, directly addressed to
the configured agent `codex`. -/
def sampleCoordMsg : Event := ⟨"e2", "T2", "message", "bridge-coordinator", "codex", .str "x"⟩

/-- A message from `codex` directly addressed to itself. -/
def sampleDirectMsg : Event := ⟨"e1", "T2", "message", "codex", "codex", .str "follow-up"⟩

/-- A thread state with discussion mode fully on. -/
def sampleDiscState : ThreadState := ⟨false, [], ⟨true, true⟩⟩

/-- A message from agent `codex` to `all` with the reserved mention. -/
def sampleAgentReserved : Event := ⟨"e3", "T2", "message", "codex", "all", .str "@all hi"⟩

/-- A message from `user` to `all` with the reserved mention. -/
def sampleUserReserved : Event := ⟨"e4", "T2", "message", "user", "all", .str "@all hi"⟩

/-! # Theorems -/

/-! ## Shared helper lemmas -/

theorem string_data_append (a b : String) : (a ++ b).data = a.data ++ b.data := rfl

theorem lexLtChars_self (l : List Char) : lexLtChars l l = false := by
  induction l with
  | nil => rfl
  | cons a as ih => simp [lexLtChars, ih]

theorem pyStrLe_refl (s : String) : pyStrLe s s = true := by
  simp [pyStrLe, pyStrLt, lexLtChars_self]

theorem mem_setInsert_self (l : List String) (x : String) : x ∈ setInsert l x := by
  by_cases h : x ∈ l <;> simp [setInsert, h]

theorem mem_setInsert_of_mem {l : List String} {y : String} (x : String) (h : y ∈ l) :
    y ∈ setInsert l x := by
  by_cases hx : x ∈ l <;> simp [setInsert, hx, h]

theorem truncate_eq_of_le {x : String} {n : Int} (h : (x.data.length : Int) ≤ n) :
    _truncate x n = x := by
  rw [_truncate, if_pos h]

theorem truncate_data_of_gt {x : String} {n : Int} (h20 : 20 ≤ n)
    (h : n < (x.data.length : Int)) :
    (_truncate x n).data = x.data.take (n - 20).toNat ++ "\n\n[truncated]\n".data := by
  rw [_truncate, if_neg (by omega), string_data_append]
  congr 1
  rw [pySliceTo, if_pos (by omega)]

theorem truncate_length_le {x : String} {n : Int} (h20 : 20 ≤ n) :
    ((_truncate x n).data.length : Int) ≤ n := by
  by_cases h : (x.data.length : Int) ≤ n
  · rw [truncate_eq_of_le h]; exact h
  · push_neg at h
    rw [truncate_data_of_gt h20 h]
    have htake : (x.data.take (n - 20).toNat).length = min (n - 20).toNat x.data.length :=
      List.length_take _ _
    have hsuf : ("\n\n[truncated]\n".data).length = 14 := by decide
    rw [List.length_append, htake, hsuf]
    have hmin : min (n - 20).toNat x.data.length ≤ (n - 20).toNat := Nat.min_le_left _ _
    have : ((n - 20).toNat : Int) = n - 20 := Int.toNat_of_nonneg (by omega)
    omega

theorem truncate_idem {x : String} {n : Int} (h20 : 20 ≤ n) :
    _truncate (_truncate x n) n = _truncate x n :=
  truncate_eq_of_le (truncate_length_le h20)

/-! ## C4: truncation -/

/-- Claim C4 as stated is false: for budgets below 20 the Python slice
`text[. max_chars - 20]` has a negative bound and counts from the end,
so with `x` of 30 characters and `n = 10` the result keeps 20 characters
plus the 14-character marker (34 > 10), is not the first `n - 20`
characters, and re-truncating grows it further (38 characters). -/
theorem truncate_small_budget_counterexample :
    (_truncate ⟨List.replicate 30 'a'⟩ 10).data.length = 34 ∧
    ¬ ((_truncate ⟨List.replicate 30 'a'⟩ 10).data.length ≤ 10) ∧
    _truncate (_truncate ⟨List.replicate 30 'a'⟩ 10) 10 ≠ _truncate ⟨List.replicate 30 'a'⟩ 10 := by
  refine ⟨by decide, by decide, by decide⟩

/-- Claim C4, amended: for every string `x` and every budget `n ≥ 20`
(the deployed budgets are 8000 and 4000), `_truncate` returns `x`
unchanged when `len x ≤ n` and otherwise the first `n - 20` characters
followed by `"\n\n[truncated]\n"`; the result has length at most `n`
and truncation is idempotent.  For `n < 20` the Python negative slice
breaks both the length bound and idempotence. -/
theorem truncate_spec_for_budget_ge_20 (x : String) (n : Int) (h20 : 20 ≤ n) :
    ((x.data.length : Int) ≤ n → _truncate x n = x) ∧
    (n < (x.data.length : Int) →
      (_truncate x n).data = x.data.take (n - 20).toNat ++ "\n\n[truncated]\n".data) ∧
    ((_truncate x n).data.length : Int) ≤ n ∧
    _truncate (_truncate x n) n = _truncate x n :=
  ⟨fun h => truncate_eq_of_le h,
   fun h => truncate_data_of_gt h20 h,
   truncate_length_le h20,
   truncate_idem h20⟩

/-- Witness for C4 at `x` of 30 characters and `n = 25`. -/
theorem truncate_spec_for_budget_ge_20_witness :
    (20 : Int) ≤ 25 ∧
    (_truncate ⟨List.replicate 30 'a'⟩ 25).data =
      (List.replicate 30 'a').take 5 ++ "\n\n[truncated]\n".data ∧
    _truncate (_truncate ⟨List.replicate 30 'a'⟩ 25) 25 = _truncate ⟨List.replicate 30 'a'⟩ 25 := by
  refine ⟨by decide, ?_, (truncate_spec_for_budget_ge_20 ⟨List.replicate 30 'a'⟩ 25 (by decide)).2.2.2⟩
  have h := (truncate_spec_for_budget_ge_20 ⟨List.replicate 30 'a'⟩ 25 (by decide)).2.1 (by decide)
  simpa using h

/-! ## C8: presence details preservation -/

/-- Claim C8: `set_presence` without `details` keeps the previously
stored details for the slot while replacing `state` and `updated_at`;
with `details` supplied it replaces them. -/
theorem set_presence_details_semantics (e : PresenceEntry) (ex : Option PresenceEntry)
    (st now : String) (d : DetailsDict) :
    set_presence (some e) st now none = ⟨st, now, e.details⟩ ∧
    set_presence none st now none = ⟨st, now, none⟩ ∧
    set_presence ex st now (some d) = ⟨st, now, some d⟩ :=
  ⟨rfl, rfl, rfl⟩

/-! ## C10: unknown thread -/

/-- Claim C10: for a thread whose journal file does not exist, reading
events yields the empty list with count 0 and the state snapshot is the
default `{paused: false, muted: [], discussion: {on: false,
allow_agent_mentions: false}}`; both reads succeed (the model functions
are total and return normal payloads, never an error shape). -/
theorem unknown_thread_defaults (since : Option String) (tid : String) :
    get_thread_events none since = ([], 0) ∧
    get_thread_state_snapshot none tid = ⟨tid, false, [], false, false⟩ :=
  ⟨rfl, rfl⟩

/-! ## C6: identifier shape and ordering -/

theorem encodeDigits_length (v n : Nat) : (encodeDigits v n).length = n := by
  induction n generalizing v with
  | zero => rfl
  | succ n ih => simp [encodeDigits, ih]

theorem _encode_base32_length (v n : Nat) : (_encode_base32 v n).length = n := by
  simp [_encode_base32, encodeDigits_length]

theorem _encode_base32_succ (v n : Nat) :
    _encode_base32 v (n + 1) =
      _encode_base32 (v / 32) n ++ [BASE32_ALPHABET.getD (v % 32) '0'] := by
  simp [_encode_base32, encodeDigits]

theorem alphabet_mono :
    ∀ i j : Fin 32, i < j → BASE32_ALPHABET.getD i '0' < BASE32_ALPHABET.getD j '0' := by
  decide

theorem alphabet_mono_nat {a b : Nat} (hab : a < b) (hb : b < 32) :
    BASE32_ALPHABET.getD a '0' < BASE32_ALPHABET.getD b '0' :=
  alphabet_mono ⟨a, lt_trans hab hb⟩ ⟨b, hb⟩ hab

theorem lex_append_of_lex {α : Type} {r : α → α → Prop} {l1 l2 : List α} (s1 s2 : List α)
    (hlen : l1.length = l2.length) (h : List.Lex r l1 l2) :
    List.Lex r (l1 ++ s1) (l2 ++ s2) := by
  induction h with
  | nil => simp at hlen
  | rel hr => exact List.Lex.rel hr
  | cons h ih => exact List.Lex.cons (ih (by simpa using hlen))

theorem lex_append_same {α : Type} {r : α → α → Prop} (p : List α) {a b : α} (h : r a b)
    (s1 s2 : List α) : List.Lex r (p ++ a :: s1) (p ++ b :: s2) := by
  induction p with
  | nil => exact List.Lex.rel h
  | cons c p ih => exact List.Lex.cons ih

theorem encode_mono :
    ∀ (n v1 v2 : Nat), v1 < v2 → v2 < 32 ^ n →
      List.Lex (· < ·) (_encode_base32 v1 n) (_encode_base32 v2 n) := by
  intro n
  induction n with
  | zero => intro v1 v2 h hb; omega
  | succ n ih =>
    intro v1 v2 h hb
    rw [_encode_base32_succ v1 n, _encode_base32_succ v2 n]
    rcases Nat.lt_or_ge (v1 / 32) (v2 / 32) with hq | hq
    · have hb' : v2 / 32 < 32 ^ n := by
        rw [Nat.div_lt_iff_lt_mul (by norm_num)]
        calc v2 < 32 ^ (n + 1) := hb
        _ = 32 ^ n * 32 := by ring
      exact lex_append_of_lex _ _
        (by rw [_encode_base32_length, _encode_base32_length]) (ih _ _ hq hb')
    · have hq' : v1 / 32 = v2 / 32 :=
        le_antisymm (Nat.div_le_div_right (le_of_lt h)) hq
      have hm : v1 % 32 < v2 % 32 := by
        have e1 := Nat.div_add_mod v1 32
        have e2 := Nat.div_add_mod v2 32
        omega
      rw [hq']
      exact lex_append_same _ (alphabet_mono_nat hm (Nat.mod_lt _ (by norm_num))) [] []

/-- Claim C6: every generated id has exactly 26 characters, the first 10
being the fixed-width Crockford base32 encoding of the millisecond
timestamp and the last 16 the encoding of the 80 random bits; two ids
generated in order (so `t1 < t2`, granting the spec's monotonic-clock
assumption) with distinct millisecond timestamps below the 10-digit
capacity `32^10` compare lexicographically in generation order,
whatever their random parts. -/
theorem ulid_shape_and_order (t r t1 t2 r1 r2 : Nat)
    (hlt : t1 < t2) (hbound : t2 < 32 ^ 10) :
    (ulid t r).length = 26 ∧
    (ulid t r).data.take 10 = _encode_base32 t 10 ∧
    (ulid t r).data.drop 10 = _encode_base32 r 16 ∧
    ulid t1 r1 < ulid t2 r2 := by
  have hlen10 : (_encode_base32 t 10).length = 10 := _encode_base32_length t 10
  refine ⟨?_, ?_, ?_, ?_⟩
  · show (_encode_base32 t 10 ++ _encode_base32 r 16).length = 26
    rw [List.length_append, _encode_base32_length, _encode_base32_length]
  · show (_encode_base32 t 10 ++ _encode_base32 r 16).take 10 = _encode_base32 t 10
    exact List.take_left' hlen10
  · show (_encode_base32 t 10 ++ _encode_base32 r 16).drop 10 = _encode_base32 r 16
    exact List.drop_left' hlen10
  · rw [String.lt_iff_toList_lt]
    have hx : List.Lex (· < ·) ((ulid t1 r1).toList) ((ulid t2 r2).toList) := by
      show List.Lex (· < ·) (_encode_base32 t1 10 ++ _encode_base32 r1 16)
        (_encode_base32 t2 10 ++ _encode_base32 r2 16)
      exact lex_append_of_lex _ _
        (by rw [_encode_base32_length, _encode_base32_length])
        (encode_mono 10 t1 t2 hlt hbound)
    exact hx

/-- Witness for C6 at timestamps 0 < 1 and random parts 0 and 0. -/
theorem ulid_shape_and_order_witness :
    0 < 1 ∧ 1 < 32 ^ 10 ∧ (ulid 0 0).length = 26 ∧ ulid 0 0 < ulid 1 0 := by
  have h := ulid_shape_and_order 0 0 0 1 0 0 (by decide) (by norm_num)
  exact ⟨by decide, by norm_num, h.1, h.2.2.2⟩

/-! ## C3: adapter failure surfacing -/

theorem adapterResultEvent_failure_eq (cfg : CoordConfig) (agent_id evt_id : String)
    (rc : Int) (out err : String) (h : rc ≠ 0) :
    adapterResultEvent cfg agent_id evt_id ⟨rc, out, err⟩ =
      ⟨"message", cfg.coordinator_id, "all",
        _truncate (adapterFailureText agent_id rc err out) 4000,
        ⟨evt_id, ["coordinator", "error"]⟩⟩ := by
  rw [adapterResultEvent, if_neg (by simpa using h)]

theorem exitCode_infix_failureText (agent_id : String) (rc : Int) (out err : String) :
    (toString rc).data <:+: (adapterFailureText agent_id rc err out).data := by
  refine ⟨("Adapter failed for " ++ agent_id ++ " (exit ").data,
    (")." ++ "\n\nstderr:\n" ++ pyStrip err ++ "\n\nstdout:\n" ++ pyStrip out).data, ?_⟩
  simp [adapterFailureText, string_data_append, List.append_assoc]

theorem stderr_infix_failureText (agent_id : String) (rc : Int) (out err : String) :
    (pyStrip err).data <:+: (adapterFailureText agent_id rc err out).data := by
  refine ⟨("Adapter failed for " ++ agent_id ++ " (exit " ++ toString rc ++ ")." ++
    "\n\nstderr:\n").data, ("\n\nstdout:\n" ++ pyStrip out).data, ?_⟩
  simp [adapterFailureText, string_data_append, List.append_assoc]

theorem stdout_infix_failureText (agent_id : String) (rc : Int) (out err : String) :
    (pyStrip out).data <:+: (adapterFailureText agent_id rc err out).data := by
  refine ⟨("Adapter failed for " ++ agent_id ++ " (exit " ++ toString rc ++ ")." ++
    "\n\nstderr:\n" ++ pyStrip err ++ "\n\nstdout:\n").data, [], ?_⟩
  simp [adapterFailureText, string_data_append, List.append_assoc]

/-- Claim C3: for any adapter invocation ending with a non-zero exit
code (the synthetic 124 and 125 included), the coordinator's appended
event is a message from `coordinator_id` to `all`, tagged
`["coordinator","error"]`, whose content is the single combined string
carrying the exit code, the stripped stderr and the stripped stdout,
truncated to 4000 characters (so its length is at most 4000).  The
outcome handler is a total function of the adapter result — the
`try/except` wrapping turns timeouts and spawn errors into results with
codes 124/125 — so a failing adapter yields this in-thread event rather
than ending the coordinator loop. -/
theorem adapter_failure_event (cfg : CoordConfig) (agent_id evt_id : String)
    (rc : Int) (out err : String) (h : rc ≠ 0) :
    adapterResultEvent cfg agent_id evt_id ⟨rc, out, err⟩ =
      ⟨"message", cfg.coordinator_id, "all",
        _truncate (adapterFailureText agent_id rc err out) 4000,
        ⟨evt_id, ["coordinator", "error"]⟩⟩ ∧
    (toString rc).data <:+: (adapterFailureText agent_id rc err out).data ∧
    (pyStrip err).data <:+: (adapterFailureText agent_id rc err out).data ∧
    (pyStrip out).data <:+: (adapterFailureText agent_id rc err out).data ∧
    ((_truncate (adapterFailureText agent_id rc err out) 4000).data.length : Int) ≤ 4000 :=
  ⟨adapterResultEvent_failure_eq cfg agent_id evt_id rc out err h,
   exitCode_infix_failureText agent_id rc out err,
   stderr_infix_failureText agent_id rc out err,
   stdout_infix_failureText agent_id rc out err,
   truncate_length_le (by norm_num)⟩

/-- Witness for C3 at exit code 3 with stderr `" boom \n"` and stdout
`"sout"`. -/
theorem adapter_failure_event_witness :
    (3 : Int) ≠ 0 ∧
    adapterResultEvent sampleCfg "codex" "e9" ⟨3, "sout", " boom \n"⟩ =
      ⟨"message", "bridge-coordinator", "all",
        "Adapter failed for codex (exit 3).\n\nstderr:\nboom\n\nstdout:\nsout",
        ⟨"e9", ["coordinator", "error"]⟩⟩ := by
  constructor
  · decide
  · have h := (adapter_failure_event sampleCfg "codex" "e9" 3 "sout" " boom \n" (by decide)).1
    rw [h]
    decide

/-! ## C1: admission gate on POST /threads/{id}/events -/

/-- Claim C1: a message event whose `from` is not `user` is checked
against the state derived from the already-stored events: a muted
sender gets `409 participant_muted`, otherwise a paused thread gets
`409 thread_paused`, both with an error body carrying
`{code, message, thread, participant}`, and in both cases the journal
is returned unchanged (nothing is appended). -/
theorem post_event_admission (log : List Event) (tid : String) (data : SReq)
    (nid nts f : String) (cnt : EvContent)
    (htype : data.rtype = some "message") (hfrom : data.rfrom = some f)
    (hne : f ≠ "user") (hcnt : data.rcontent = some cnt) :
    (f ∈ (_derive_thread_state log).muted →
      post_thread_event log tid data nid nts =
        .conflict 409 ⟨"participant_muted", "Participant is muted for this thread.", tid, f⟩ log) ∧
    (f ∉ (_derive_thread_state log).muted → (_derive_thread_state log).paused = true →
      post_thread_event log tid data nid nts =
        .conflict 409 ⟨"thread_paused", "Thread is paused for non-user participants.", tid, f⟩ log) ∧
    ((f ∈ (_derive_thread_state log).muted ∨ (_derive_thread_state log).paused = true) →
      (post_thread_event log tid data nid nts).log = log) := by
  refine ⟨?_, ?_, ?_⟩
  · intro hmem
    simp [post_thread_event, hfrom, hcnt, htype, hne, hmem]
  · intro hmem hp
    simp [post_thread_event, hfrom, hcnt, htype, hne, hmem, hp]
  · intro hcase
    rcases hcase with hmem | hp
    · simp [post_thread_event, hfrom, hcnt, htype, hne, hmem, PostResult.log]
    · by_cases hmem : f ∈ (_derive_thread_state log).muted
      · simp [post_thread_event, hfrom, hcnt, htype, hne, hmem, PostResult.log]
      · simp [post_thread_event, hfrom, hcnt, htype, hne, hmem, hp, PostResult.log]

/-- Witness for C1: with a stored hard-mute of `codex`, a message POST
from `codex` is rejected with `participant_muted` and the journal stays
as it was. -/
theorem post_event_admission_witness :
    "codex" ∈ (_derive_thread_state [sampleMute]).muted ∧
    post_thread_event [sampleMute] "th" sampleReq "nid" "nts" =
      .conflict 409 ⟨"participant_muted", "Participant is muted for this thread.", "th", "codex"⟩
        [sampleMute] := by
  refine ⟨by decide, ?_⟩
  exact (post_event_admission [sampleMute] "th" sampleReq "nid" "nts" "codex" (.str "hello")
    rfl rfl (by decide) rfl).1 (by decide)

/-! ## C2: control-state locality -/

theorem controlStateBefore_break (eid : String) :
    ∀ (l1 : List Event) (e : Event) (l2 : List Event) (st : ThreadState),
      pyOr e.id "" = eid → (∀ x ∈ l1, pyOr x.id "" ≠ eid) →
      controlStateBeforeAux st eid (l1 ++ e :: l2) = l1.foldl applyQualifyingControl st := by
  intro l1
  induction l1 with
  | nil =>
    intro e l2 st he _
    simp [controlStateBeforeAux, he]
  | cons x xs ih =>
    intro e l2 st he h1
    have hx : pyOr x.id "" ≠ eid := h1 x (by simp)
    simp only [List.cons_append, controlStateBeforeAux, List.foldl_cons]
    rw [if_neg hx]
    exact ih e l2 _ he (fun y hy => h1 y (by simp [hy]))

theorem scanStep_control_state (cfg : CoordConfig) (runA : String → String → AdapterResult)
    (p : Participants) (since : String) (acc : ScanAcc) (evt : Event) :
    (scanStep cfg runA p since acc evt).control_state =
      if evt.ts = "" then acc.control_state
      else applyQualifyingControl acc.control_state evt := by
  by_cases hts : evt.ts = ""
  · simp [scanStep, hts]
  · by_cases hc : evt.type = "control" ∧ evt.from_ = "user"
    · simp [scanStep, hts, hc, applyQualifyingControl]
    · by_cases hnew : pyStrLt since evt.ts = true
      · by_cases hid : evt.id = "" ∨ evt.id ∈ acc.seen
        · simp [scanStep, hts, hc, hnew, hid, applyQualifyingControl]
        · simp [scanStep, hts, hc, hnew, hid, applyQualifyingControl]
      · simp [scanStep, hts, hc, hnew, applyQualifyingControl]

theorem scan_foldl_control_state (cfg : CoordConfig) (runA : String → String → AdapterResult)
    (p : Participants) (since : String) :
    ∀ (events : List Event) (acc : ScanAcc), (∀ e ∈ events, e.ts ≠ "") →
      (events.foldl (scanStep cfg runA p since) acc).control_state =
        events.foldl applyQualifyingControl acc.control_state := by
  intro events
  induction events with
  | nil => intro acc _; rfl
  | cons x xs ih =>
    intro acc hts
    simp only [List.foldl_cons]
    rw [ih _ (fun e he => hts e (by simp [he]))]
    rw [scanStep_control_state, if_neg (hts x (by simp))]

/-- Claim C2: `_control_state_before_event` returns the fold of exactly
the qualifying controls strictly before the target event (first
conjunct: with no earlier event sharing the id, the fold stops at the
target and equals `_derive_thread_state` of the prefix); and in the
coordinator's in-order scan a non-control event leaves the in-scan
control state untouched (second conjunct) while a qualifying control
between two messages updates it, so the state in force for anything
scanned after `pre ++ [m1, c]` — the second message — is the state in
force at `m1` with `c`'s content applied (third conjunct). -/
theorem control_state_locality
    (l1 l2 : List Event) (e : Event)
    (cfg : CoordConfig) (runA : String → String → AdapterResult) (p : Participants)
    (since : String) (seen0 : List String)
    (pre : List Event) (m1 c : Event) (cc : ControlContent)
    (he : e.id ≠ "") (h1 : ∀ x ∈ l1, x.id ≠ e.id)
    (hm1 : ¬ (m1.type = "control" ∧ m1.from_ = "user"))
    (hcq : c.type = "control" ∧ c.from_ = "user")
    (hcp : _parse_control_content c.content = some cc)
    (hts : ∀ x ∈ pre ++ [m1, c], x.ts ≠ "") :
    _control_state_before_event (l1 ++ e :: l2) e.id = _derive_thread_state l1 ∧
    (scanThread cfg runA p since seen0 (pre ++ [m1])).control_state =
      (scanThread cfg runA p since seen0 pre).control_state ∧
    (scanThread cfg runA p since seen0 (pre ++ [m1, c])).control_state =
      _apply_control_content_to_state
        ((scanThread cfg runA p since seen0 pre).control_state) cc := by
  have hm1ts : m1.ts ≠ "" := hts m1 (by simp)
  have hcts : c.ts ≠ "" := hts c (by simp)
  have hstep1 : ∀ acc : ScanAcc,
      (scanStep cfg runA p since acc m1).control_state = acc.control_state := by
    intro acc
    rw [scanStep_control_state, if_neg hm1ts, applyQualifyingControl, if_neg hm1]
  have hstepc : ∀ acc : ScanAcc,
      (scanStep cfg runA p since acc c).control_state =
        _apply_control_content_to_state acc.control_state cc := by
    intro acc
    rw [scanStep_control_state, if_neg hcts, applyQualifyingControl, if_pos hcq, hcp]
  refine ⟨?_, ?_, ?_⟩
  · rw [_control_state_before_event]
    rw [controlStateBefore_break e.id l1 e l2 _default_control_state
      (by simp [pyOr, he]) ?_]
    · rfl
    · intro x hx
      by_cases hxid : x.id = ""
      · simp [pyOr, hxid]
        exact fun hcontra => he hcontra.symm
      · simpa [pyOr, hxid] using h1 x hx
  · rw [scanThread, scanThread, List.foldl_append]
    exact hstep1 _
  · have : pre ++ [m1, c] = (pre ++ [m1]) ++ [c] := by simp
    rw [scanThread, scanThread, this, List.foldl_append, List.foldl_append]
    simp only [List.foldl_cons, List.foldl_nil]
    rw [hstepc _, hstep1 _]

/-- Witness for C2: in a journal holding a mute control, one user
message, then nothing else, the state before the message is the fold of
the mute alone, and in a scan the control written after the message
applies only from the next event on. -/
theorem control_state_locality_witness :
    sampleUserMsg.id ≠ "" ∧
    _control_state_before_event [sampleMute, sampleUserMsg] sampleUserMsg.id =
      _derive_thread_state [sampleMute] ∧
    (scanThread sampleCfg sampleRun sampleParts "T0" [] [sampleUserMsg, sampleMute2]).control_state =
      _apply_control_content_to_state
        ((scanThread sampleCfg sampleRun sampleParts "T0" [] [sampleUserMsg]).control_state)
        ⟨some ⟨none, some ["codex"]⟩, none, none, none⟩ := by
  have h1 := control_state_locality [sampleMute] [] sampleUserMsg sampleCfg sampleRun
    sampleParts "T0" [] [] sampleUserMsg sampleMute2
    ⟨some ⟨none, some ["codex"]⟩, none, none, none⟩
    (by decide) (by decide) (by decide) (by decide) rfl (by decide)
  simp only [List.cons_append, List.nil_append] at h1
  refine ⟨by decide, h1.1, ?_⟩
  rw [h1.2.2, h1.2.1]

/-! ## C7: cursor progress -/

theorem scanStep_last_ts_cases (cfg : CoordConfig) (runA : String → String → AdapterResult)
    (p : Participants) (since : String) (acc : ScanAcc) (evt : Event) :
    (scanStep cfg runA p since acc evt).last_ts = acc.last_ts ∨
    (scanStep cfg runA p since acc evt).last_ts = evt.ts := by
  by_cases hts : evt.ts = ""
  · left; simp [scanStep, hts]
  · by_cases hc : evt.type = "control" ∧ evt.from_ = "user"
    · by_cases hnew : pyStrLt since evt.ts = true
      · right; simp [scanStep, hts, hc, hnew]
      · left; simp [scanStep, hts, hc, hnew]
    · by_cases hnew : pyStrLt since evt.ts = true
      · by_cases hid : evt.id = "" ∨ evt.id ∈ acc.seen
        · right; simp [scanStep, hts, hc, hnew, hid]
        · right; simp [scanStep, hts, hc, hnew, hid]
      · left; simp [scanStep, hts, hc, hnew]

theorem scanStep_last_ts_new (cfg : CoordConfig) (runA : String → String → AdapterResult)
    (p : Participants) (since : String) (acc : ScanAcc) (evt : Event)
    (hts : evt.ts ≠ "") (hnew : pyStrLt since evt.ts = true) :
    (scanStep cfg runA p since acc evt).last_ts = evt.ts := by
  by_cases hc : evt.type = "control" ∧ evt.from_ = "user"
  · simp [scanStep, hts, hc, hnew]
  · by_cases hid : evt.id = "" ∨ evt.id ∈ acc.seen <;>
      simp [scanStep, hts, hc, hnew, hid]

theorem foldl_last_ts_provenance (cfg : CoordConfig) (runA : String → String → AdapterResult)
    (p : Participants) (since : String) :
    ∀ (events : List Event) (acc : ScanAcc),
      (events.foldl (scanStep cfg runA p since) acc).last_ts = acc.last_ts ∨
      ∃ e ∈ events, (events.foldl (scanStep cfg runA p since) acc).last_ts = e.ts := by
  intro events
  induction events with
  | nil => intro acc; left; rfl
  | cons x xs ih =>
    intro acc
    simp only [List.foldl_cons]
    rcases ih (scanStep cfg runA p since acc x) with h | ⟨e, he, hh⟩
    · rcases scanStep_last_ts_cases cfg runA p since acc x with h2 | h2
      · left; rw [h, h2]
      · right; exact ⟨x, by simp, by rw [h, h2]⟩
    · right; exact ⟨e, by simp [he], hh⟩

theorem foldl_last_ts_ge (cfg : CoordConfig) (runA : String → String → AdapterResult)
    (p : Participants) (since : String) :
    ∀ (events : List Event) (acc : ScanAcc),
      events.Pairwise (fun a b => pyStrLe a.ts b.ts = true) →
      ∀ e ∈ events, e.ts ≠ "" → pyStrLt since e.ts = true →
        pyStrLe e.ts (events.foldl (scanStep cfg runA p since) acc).last_ts = true := by
  intro events
  induction events with
  | nil => intro acc _ e he; cases he
  | cons x xs ih =>
    intro acc hp e he hets henew
    rw [List.pairwise_cons] at hp
    obtain ⟨hx, hp'⟩ := hp
    simp only [List.foldl_cons]
    rcases List.mem_cons.mp he with rfl | hmem
    · rcases foldl_last_ts_provenance cfg runA p since xs
        (scanStep cfg runA p since acc e) with h | ⟨b, hb, hh⟩
      · rw [h, scanStep_last_ts_new cfg runA p since acc e hets henew]
        exact pyStrLe_refl _
      · rw [hh]
        exact hx b hb
    · exact ih _ hp' e hmem hets henew

/-- Claim C7: during a tick's scan with cursor `since`, every event with
a non-empty `ts > since` sets `last_ts` to its own `ts` when processed,
whatever its kind or dispatch outcome (first conjunct); and for a
journal whose timestamps are non-decreasing in append order — the
store's ordering invariant — the cursor after the whole scan is `≥` the
`ts` of every such new event (second conjunct). -/
theorem cursor_progress (cfg : CoordConfig) (runA : String → String → AdapterResult)
    (p : Participants) (since : String) (seen0 : List String) (events : List Event)
    (hsort : events.Pairwise (fun a b => pyStrLe a.ts b.ts = true)) :
    (∀ (acc : ScanAcc) (evt : Event), evt.ts ≠ "" → pyStrLt since evt.ts = true →
      (scanStep cfg runA p since acc evt).last_ts = evt.ts) ∧
    (∀ e ∈ events, e.ts ≠ "" → pyStrLt since e.ts = true →
      pyStrLe e.ts (scanThread cfg runA p since seen0 events).last_ts = true) := by
  refine ⟨fun acc evt h1 h2 => scanStep_last_ts_new cfg runA p since acc evt h1 h2, ?_⟩
  intro e he h1 h2
  unfold scanThread
  exact foldl_last_ts_ge cfg runA p since events _ hsort e he h1 h2

/-- Witness for C7 on a two-event scan (one dispatched message, one
control). -/
theorem cursor_progress_witness :
    ([sampleUserMsg, sampleMute2].Pairwise (fun a b => pyStrLe a.ts b.ts = true)) ∧
    pyStrLe sampleUserMsg.ts
      (scanThread sampleCfg sampleRun sampleParts "T0" [] [sampleUserMsg, sampleMute2]).last_ts
      = true := by
  refine ⟨by decide, ?_⟩
  exact (cursor_progress sampleCfg sampleRun sampleParts "T0" [] [sampleUserMsg, sampleMute2]
    (by decide)).2 sampleUserMsg (by simp) (by decide) (by decide)

/-! ## C9: direct addressing -/

/-- Claim C9 as stated is false on one point: a new message directly
addressed to a configured agent is still skipped when its sender is the
coordinator itself, even though the thread is neither paused nor muting
the target, so the pause and mute gates are not the only things that
can prevent a direct dispatch. -/
theorem direct_address_coordinator_sender_counterexample :
    eventActions sampleCfg sampleRun sampleParts _default_control_state sampleCoordMsg = [] ∧
    sampleCoordMsg.type = "message" ∧
    sampleCoordMsg.to_ ∈ sampleCfg.agents ∧
    _default_control_state.paused = false ∧
    sampleCoordMsg.to_ ∉ _default_control_state.muted := by
  refine ⟨by decide, by decide, by decide, by decide, by decide⟩

/-- Claim C9, amended: for a new message event whose `to` is a
configured agent id (neither `all` nor `user`) and whose sender is not
the coordinator itself, the target set is exactly that agent —
whatever the discussion state and whoever the sender is, the sender
equalling the target included (no self-wake suppression on this path) —
and only the pause gate and the mute gate (beyond the coordinator-sender
skip) can prevent the dispatch. -/
theorem direct_address_targets (cfg : CoordConfig) (runA : String → String → AdapterResult)
    (p : Participants) (st : ThreadState) (since : String) (acc : ScanAcc)
    (evt : Event) (t : String)
    (hfrom : evt.from_ ≠ cfg.coordinator_id)
    (htype : evt.type = "message")
    (hto : evt.to_ = t) (htu : t ≠ "user") (hta : t ≠ "all") (htn : t ≠ "")
    (hag : t ∈ cfg.agents)
    (hpause : st.paused = false)
    (hmute : t ∉ st.muted) :
    eventActions cfg runA p st evt =
      [.invoke t evt.id, .post (adapterResultEvent cfg t evt.id (runA t evt.id))] ∧
    (evt.ts ≠ "" → pyStrLt since evt.ts = true → evt.id ≠ "" → evt.id ∉ acc.seen →
      acc.control_state = st →
      (scanStep cfg runA p since acc evt).actions =
        acc.actions ++
          [.invoke t evt.id, .post (adapterResultEvent cfg t evt.id (runA t evt.id))]) := by
  have hdisp : dispatchActions cfg runA st [t] evt.id =
      [ScanAction.invoke t evt.id,
       ScanAction.post (adapterResultEvent cfg t evt.id (runA t evt.id))] := by
    by_cases hm : st.muted = []
    · simp [dispatchActions, hm]
    · simp [dispatchActions, hm, hmute]
  have hmain : eventActions cfg runA p st evt =
      [ScanAction.invoke t evt.id,
       ScanAction.post (adapterResultEvent cfg t evt.id (runA t evt.id))] := by
    rw [eventActions]
    simp only [hto, htype, hfrom, hpause]
    rw [pyOr, if_neg htn]
    simp [htu, hta, hag, hdisp]
  refine ⟨hmain, ?_⟩
  intro hts hnew hid hseen hst
  have hcq : ¬ (evt.type = "control" ∧ evt.from_ = "user") := by
    rw [htype]; simp
  rw [scanStep, if_neg hts, if_neg hcq, if_pos hnew, if_neg (by push_neg; exact ⟨hid, hseen⟩)]
  simp only []
  rw [hst, hmain]

/-- Witness for C9: a self-addressed direct message from `codex` (the
sender equals the target) dispatches exactly `codex`. -/
theorem direct_address_targets_witness :
    sampleDirectMsg.from_ ≠ sampleCfg.coordinator_id ∧
    eventActions sampleCfg sampleRun sampleParts sampleDiscState sampleDirectMsg =
      [.invoke "codex" "e1",
       .post (adapterResultEvent sampleCfg "codex" "e1" (sampleRun "codex" "e1"))] := by
  refine ⟨by decide, ?_⟩
  exact (direct_address_targets sampleCfg sampleRun sampleParts sampleDiscState "T0"
    ⟨"T0", [], sampleDiscState, []⟩ sampleDirectMsg "codex"
    (by decide) (by decide) (by decide) (by decide) (by decide) (by decide) (by decide)
    (by decide) (by decide)).1

/-! ## C5: reserved mentions -/

theorem mem_insertLeBy {α : Type} (le : α → α → Bool) (x y : α) :
    ∀ l : List α, y ∈ insertLeBy le x l ↔ y = x ∨ y ∈ l := by
  intro l
  induction l with
  | nil => simp [insertLeBy]
  | cons z zs ih =>
    by_cases h : le x z = true
    · simp [insertLeBy, h]
    · simp only [insertLeBy, if_neg h, List.mem_cons, ih]
      tauto

theorem mem_sortLeBy {α : Type} (le : α → α → Bool) (y : α) :
    ∀ l : List α, y ∈ sortLeBy le l ↔ y ∈ l := by
  intro l
  induction l with
  | nil => simp [sortLeBy]
  | cons x xs ih => simp [sortLeBy, mem_insertLeBy, ih]

theorem resolveStep_reserved_hits (p : Participants) (acc : ResolveOut) (m : String) :
    (resolveStep p acc m).reserved_hits =
      if m ∈ RESERVED then setInsert acc.reserved_hits m else acc.reserved_hits := by
  by_cases hr : m ∈ RESERVED
  · simp [resolveStep, hr]
  · cases h : idLookup p m with
    | some pid => simp [resolveStep, hr, h]
    | none =>
      by_cases hn : nicknameIds p m = []
      · by_cases hc : categoryIds p m = []
        · simp [resolveStep, hr, h, hn, hc]
        · simp [resolveStep, hr, h, hn, hc]
      · cases hs : pySortStrs (nicknameIds p m) with
        | nil => simp [resolveStep, hr, h, hn, hs]
        | cons x l =>
          cases l with
          | nil => simp [resolveStep, hr, h, hn, hs]
          | cons y l2 => simp [resolveStep, hr, h, hn, hs]

theorem resolveStep_congr (p : Participants) (m : String) (a b : ResolveOut)
    (ht : a.target_ids = b.target_ids) (ha : a.ambiguous = b.ambiguous) :
    (resolveStep p a m).target_ids = (resolveStep p b m).target_ids ∧
    (resolveStep p a m).ambiguous = (resolveStep p b m).ambiguous := by
  by_cases hr : m ∈ RESERVED
  · simp [resolveStep, hr, ht, ha]
  · cases h : idLookup p m with
    | some pid => simp [resolveStep, hr, h, ht, ha]
    | none =>
      by_cases hn : nicknameIds p m = []
      · by_cases hc : categoryIds p m = []
        · simp [resolveStep, hr, h, hn, hc, ht, ha]
        · simp [resolveStep, hr, h, hn, hc, ht, ha]
      · cases hs : pySortStrs (nicknameIds p m) with
        | nil => simp [resolveStep, hr, h, hn, hs, ht, ha]
        | cons x l =>
          cases l with
          | nil => simp [resolveStep, hr, h, hn, hs, ht, ha]
          | cons y l2 => simp [resolveStep, hr, h, hn, hs, ht, ha]

theorem resolve_foldl_congr (p : Participants) :
    ∀ (l : List String) (a b : ResolveOut),
      a.target_ids = b.target_ids → a.ambiguous = b.ambiguous →
      (l.foldl (resolveStep p) a).target_ids = (l.foldl (resolveStep p) b).target_ids ∧
      (l.foldl (resolveStep p) a).ambiguous = (l.foldl (resolveStep p) b).ambiguous := by
  intro l
  induction l with
  | nil => intro a b ht ha; exact ⟨ht, ha⟩
  | cons m ms ih =>
    intro a b ht ha
    simp only [List.foldl_cons]
    obtain ⟨ht2, ha2⟩ := resolveStep_congr p m a b ht ha
    exact ih _ _ ht2 ha2

theorem resolveStep_reserved_inert (p : Participants) (acc : ResolveOut) (m : String)
    (hr : m ∈ RESERVED) :
    (resolveStep p acc m).target_ids = acc.target_ids ∧
    (resolveStep p acc m).ambiguous = acc.ambiguous := by
  simp [resolveStep, hr]

theorem resolve_drop_reserved (p : Participants) :
    ∀ (l : List String) (acc : ResolveOut),
      (((l.filter (fun m => !(RESERVED.contains m))).foldl (resolveStep p) acc).target_ids =
        (l.foldl (resolveStep p) acc).target_ids) ∧
      (((l.filter (fun m => !(RESERVED.contains m))).foldl (resolveStep p) acc).ambiguous =
        (l.foldl (resolveStep p) acc).ambiguous) := by
  intro l
  induction l with
  | nil => intro acc; exact ⟨rfl, rfl⟩
  | cons m ms ih =>
    intro acc
    by_cases hr : m ∈ RESERVED
    · have hfil : (m :: ms).filter (fun x => !(RESERVED.contains x)) =
          ms.filter (fun x => !(RESERVED.contains x)) := by
        simp [List.filter_cons, hr]
      rw [hfil, List.foldl_cons]
      obtain ⟨ht, ha⟩ := resolveStep_reserved_inert p acc m hr
      obtain ⟨ht2, ha2⟩ := resolve_foldl_congr p ms acc (resolveStep p acc m) ht.symm ha.symm
      exact ⟨(ih acc).1.trans ht2, (ih acc).2.trans ha2⟩
    · have hfil : (m :: ms).filter (fun x => !(RESERVED.contains x)) =
          m :: ms.filter (fun x => !(RESERVED.contains x)) := by
        simp [List.filter_cons, hr]
      rw [hfil, List.foldl_cons, List.foldl_cons]
      exact ih (resolveStep p acc m)

theorem resolve_foldl_reserved_mono (p : Participants) :
    ∀ (l : List String) (acc : ResolveOut) (y : String),
      y ∈ acc.reserved_hits → y ∈ (l.foldl (resolveStep p) acc).reserved_hits := by
  intro l
  induction l with
  | nil => intro acc y h; exact h
  | cons m ms ih =>
    intro acc y h
    simp only [List.foldl_cons]
    refine ih _ y ?_
    rw [resolveStep_reserved_hits]
    by_cases hr : m ∈ RESERVED
    · rw [if_pos hr]; exact mem_setInsert_of_mem _ h
    · rw [if_neg hr]; exact h

theorem resolve_reserved_hit (p : Participants) :
    ∀ (l : List String) (acc : ResolveOut) (m : String),
      m ∈ l → m ∈ RESERVED → m ∈ (l.foldl (resolveStep p) acc).reserved_hits := by
  intro l
  induction l with
  | nil => intro acc m hm; cases hm
  | cons x xs ih =>
    intro acc m hm hr
    simp only [List.foldl_cons]
    rcases List.mem_cons.mp hm with rfl | hmem
    · refine resolve_foldl_reserved_mono p xs _ m ?_
      rw [resolveStep_reserved_hits, if_pos hr]
      exact mem_setInsert_self _ _
    · exact ih _ m hmem hr

/-- Claim C5 as stated is false for agent senders: a `to="all"` message
from agent `codex` (discussion mode fully on, so its mentions are
extracted) whose mention set contains the reserved token `all` produces
no coordinator response at all — the notice is gated on the sender
being `user` — although, as claimed, nothing is dispatched either. -/
theorem reserved_mention_agent_sender_counterexample :
    "all" ∈ _extract_mentions sampleAgentReserved.content sampleCfg.mention_sigil ∧
    "all" ∈ RESERVED ∧
    sampleAgentReserved.to_ = "all" ∧
    sampleAgentReserved.from_ ≠ "user" ∧
    eventActions sampleCfg sampleRun sampleParts sampleDiscState sampleAgentReserved = [] := by
  refine ⟨by decide, by decide, by decide, by decide, by decide⟩

/-- Claim C5, amended: for a `to="all"` message **from `user`** (with
mentions enabled and the thread not paused) whose extracted mention set
contains a reserved token, the coordinator posts the reserved-mention
notice, a message addressed to `user` saying the mention is not
supported; and — for any sender — reserved tokens contribute nothing to
dispatch: deleting them from the mention list leaves the resolver's
target ids and ambiguities unchanged.  Messages from agents hit no
notice (see the counterexample), only the silent non-dispatch. -/
theorem reserved_mention_notice (cfg : CoordConfig) (runA : String → String → AdapterResult)
    (parts : Participants) (st : ThreadState) (evt : Event) (rsv : String)
    (htype : evt.type = "message") (hfrom : evt.from_ = "user")
    (hcid : cfg.coordinator_id ≠ "user") (hto : evt.to_ = "all")
    (hpause : st.paused = false) (hen : cfg.enable_mentions = true)
    (hm : rsv ∈ _extract_mentions evt.content cfg.mention_sigil)
    (hr : rsv ∈ RESERVED) :
    ScanAction.post (reservedNoticeEvent cfg evt.id
        (_resolve_mentions (_extract_mentions evt.content cfg.mention_sigil) parts).reserved_hits)
      ∈ eventActions cfg runA parts st evt ∧
    (reservedNoticeEvent cfg evt.id
        (_resolve_mentions (_extract_mentions evt.content cfg.mention_sigil) parts).reserved_hits).to_
      = "user" ∧
    (∀ (l : List String) (acc : ResolveOut),
      (((l.filter (fun m => !(RESERVED.contains m))).foldl (resolveStep parts) acc).target_ids =
        (l.foldl (resolveStep parts) acc).target_ids) ∧
      (((l.filter (fun m => !(RESERVED.contains m))).foldl (resolveStep parts) acc).ambiguous =
        (l.foldl (resolveStep parts) acc).ambiguous)) := by
  have hfr : ¬ (evt.from_ = cfg.coordinator_id) := by
    rw [hfrom]; exact fun hh => hcid hh.symm
  have hmen : _extract_mentions evt.content cfg.mention_sigil ≠ [] :=
    List.ne_nil_of_mem hm
  have hhit : rsv ∈ (_resolve_mentions (_extract_mentions evt.content cfg.mention_sigil)
      parts).reserved_hits := by
    rw [_resolve_mentions]
    exact resolve_reserved_hit parts _ _ rsv ((mem_sortLeBy _ _ _).mpr hm) hr
  have hrne : (_resolve_mentions (_extract_mentions evt.content cfg.mention_sigil)
      parts).reserved_hits ≠ [] := List.ne_nil_of_mem hhit
  refine ⟨?_, rfl, fun l acc => resolve_drop_reserved parts l acc⟩
  rw [eventActions]
  simp only [hfrom, htype, hto, hpause, hen]
  simp [hfr, hmen, hrne, pyOr, Ne.symm hcid]

/-- Witness for C5: the user message `"@all hi"` produces the
reserved-mention notice among the dispatch actions. -/
theorem reserved_mention_notice_witness :
    "all" ∈ _extract_mentions sampleUserReserved.content sampleCfg.mention_sigil ∧
    ScanAction.post (reservedNoticeEvent sampleCfg sampleUserReserved.id
        (_resolve_mentions
          (_extract_mentions sampleUserReserved.content sampleCfg.mention_sigil)
          sampleParts).reserved_hits)
      ∈ eventActions sampleCfg sampleRun sampleParts _default_control_state sampleUserReserved := by
  refine ⟨by decide, ?_⟩
  exact (reserved_mention_notice sampleCfg sampleRun sampleParts _default_control_state
    sampleUserReserved "all" (by decide) (by decide) (by decide) (by decide) (by decide)
    (by decide) (by decide) (by decide)).1
